import Mathlib

/-!
Verification of the Avtomat non-deterministic finite state machine
(`src/avtomat.js`).  The JavaScript source is shallowly embedded:

* state ids are `Option String` — `none` is the reserved null-state id
  (JS `null`), `some s` a real id;
* a stored transition target (`_states[id].transitions[input]`) is either a
  single id string or an array of id strings (`TVal`);
* JS objects used as maps become association lists with unique keys
  (`alookup`, `aset`, `aerase`, `aupdate`);
* the recursive `_input` is modelled with explicit fuel (`inputFuel`);
  `JsRes.hang` marks fuel exhaustion (the JS engine recursing without
  bound), `JsRes.crash` an uncaught TypeError.
-/

namespace Avtomat

/-- A state id: `none` models the JS `null` used for `_nullStateId`. -/
abbrev StateId := Option String

/-- The reserved null-state id (`_nullStateId = null`, src line 50). -/
def nullId : StateId := none

/-- The empty input symbol (`_emptyInput = ""`, src line 57). -/
def emptyInput : String := ""

/-- Stored transition target: a single state-id string or an array of
state-id strings (README: `"stateSymbol": "anotherStateName"` or
`"stateSymbol2": ["stateName1", "stateName2"]`). -/
inductive TVal where
  | single (a : String) : TVal
  | many (l : List String) : TVal
deriving DecidableEq, Repr

/-- JS truthiness of a stored target: the empty string is falsy, every
non-empty string and every array (even `[]`) is truthy. -/
def tvTruthy : TVal → Bool
  | .single a => a ≠ emptyInput
  | .many _ => true

/-- Wrapping of `destStateObjs` into an array (src lines 279-283): a single
id becomes a one-element list, an array stays as is. -/
def tvToList : TVal → List StateId
  | .single a => [some a]
  | .many l => l.map some

/-- Association-list lookup, modelling JS object property read. -/
def alookup {α β : Type} [DecidableEq α] (k : α) : List (α × β) → Option β
  | [] => none
  | (a, b) :: t => if a = k then some b else alookup k t

/-- Association-list write, modelling JS object property assignment:
overwrite in place if the key exists, otherwise append. -/
def aset {α β : Type} [DecidableEq α] (k : α) (v : β) : List (α × β) → List (α × β)
  | [] => [(k, v)]
  | (a, b) :: t => if a = k then (k, v) :: t else (a, b) :: aset k v t

/-- Association-list delete, modelling the JS `delete` operator. -/
def aerase {α β : Type} [DecidableEq α] (k : α) : List (α × β) → List (α × β)
  | [] => []
  | (a, b) :: t => if a = k then aerase k t else (a, b) :: aerase k t

/-- Association-list in-place update of the entry at a key, if present. -/
def aupdate {α β : Type} [DecidableEq α] (k : α) (f : β → β) : List (α × β) → List (α × β)
  | [] => []
  | (a, b) :: t => if a = k then (a, f b) :: t else (a, b) :: aupdate k f t

/-- The four per-state event-callback lists (`_createBlankState`, src lines
194-206).  Handlers are opaque: each is an id number; only registration
order is tracked. -/
structure StEvents where
  arriving : List Nat
  arrive : List Nat
  leaving : List Nat
  leave : List Nat
deriving DecidableEq, Repr

/-- One entry of `_states`: final flag, transition map, event lists
(`_createBlankState`, src lines 185-208). -/
structure StateData where
  final : Bool
  transitions : List (String × TVal)
  events : StEvents
deriving DecidableEq, Repr

/-- The machine-level event lists (`_events`, src lines 77-82). -/
structure MachEvents where
  changing : List Nat
  change : List Nat
deriving DecidableEq, Repr

/-- The `_states` table: id → state data. -/
abbrev StateTable := List (StateId × StateData)

/-- `_createBlankState()` (src lines 185-208). -/
def createBlankState : StateData :=
  { final := false, transitions := [], events := ⟨[], [], [], []⟩ }

/-- Result of running a piece of JS: a value, an uncaught TypeError, or
no result at all because the recursion never bottoms out (fuel ran dry). -/
inductive JsRes (α : Type) where
  | ok (a : α) : JsRes α
  | crash : JsRes α
  | hang : JsRes α
deriving DecidableEq, Repr

/-- The fallback destination when the stored target is absent or falsy
(src line 274): stay put on the empty symbol, else the null state. -/
def fallbackDest (s : StateId) (y : String) : List StateId :=
  if y = emptyInput then [s] else [nullId]

/-- Destination resolution for one dequeued source state (src lines
271-283): `destStateObjs = transitions[input] || (input === "" ? oldState :
null)` — a stored falsy value (the empty string) falls through the `||` to
the default — then wrapped into an array. -/
def destList (sd : StateData) (s : StateId) (y : String) : List StateId :=
  match alookup y sd.transitions with
  | some v => if tvTruthy v then tvToList v else fallbackDest s y
  | none => fallbackDest s y

/-- The inner destination loop of `_input` (src lines 286-305): push each
destination that is not already collected and is not the null state; the
arriving-event dispatch `_states[destStates[j]].events.arriving` throws if
the destination state does not exist (`none` = TypeError). -/
def pushDests (st : StateTable) (acc : List StateId) : List StateId → Option (List StateId)
  | [] => some acc
  | d :: ds =>
    if d ∈ acc ∨ d = nullId then pushDests st acc ds
    else match alookup d st with
      | none => none
      | some _ => pushDests st (acc ++ [d]) ds

/-- One queue-draining pass of `_input` (src lines 262-311): dequeue each
source state, resolve its destinations, collect them de-duplicated;
`_states[oldState]` of a missing state throws (`none`). -/
def passAux (st : StateTable) (y : String) : List StateId → List StateId → Option (List StateId)
  | [], acc => some acc
  | s :: rest, acc =>
    match alookup s st with
    | none => none
    | some sd =>
      match pushDests st acc (destList sd s y) with
      | none => none
      | some acc2 => passAux st y rest acc2

/-- The epsilon re-trigger test (src lines 319-325): some state of the new
set has a *defined* entry for the empty symbol
(`typeof(transitions[""]) !== "undefined"`). -/
def hasEmptyMoves (st : StateTable) : List StateId → Bool
  | [] => false
  | s :: rest =>
    (match alookup s st with
     | some sd => (alookup emptyInput sd.transitions).isSome
     | none => false) || hasEmptyMoves st rest

/-- `_input(input)` (src lines 244-331) with explicit fuel for the
recursive epsilon pass (src line 327): run one pass over the current
active set; if the result is non-empty and some member has a defined
empty-symbol transition, recurse with the empty symbol. -/
def inputFuel (st : StateTable) : Nat → String → List StateId → JsRes (List StateId)
  | 0, _, _ => .hang
  | n + 1, y, src =>
    match passAux st y src [] with
    | none => .crash
    | some ns =>
      if ns ≠ [] ∧ hasEmptyMoves st ns then inputFuel st n emptyInput ns
      else .ok ns

/-- `_reset()` (src lines 228-236): set the active set to the start state
alone, then feed the empty symbol; the value of the call is the resulting
active set. -/
def resetFuel (st : StateTable) (start : StateId) (n : Nat) : JsRes (List StateId) :=
  inputFuel st n emptyInput [start]

/-- The mutable closure state of one `StateMachine` instance: `_states`,
`_startStateId`, `_cState`, `_events` (src lines 37-82). -/
structure Machine where
  states : StateTable
  startId : StateId
  cState : List StateId
  mevents : MachEvents
deriving DecidableEq, Repr

/-- `_nullState()` (src lines 366-368): `_cState.length === 0`. -/
def nullState (m : Machine) : Bool :=
  m.cState.length == 0

/-- `_setFinal(id, bFinal)` (src lines 216-221): set the final flag unless
the id is the null-state id. -/
def setFinal (st : StateTable) (id : StateId) (b : Bool) : StateTable :=
  if id = nullId then st else aupdate id (fun sd => { sd with final := b }) st

/-- The table effect of `_addTransition(idFrom, input, idTo)` (src lines
103-105): overwrite the `(idFrom, input)` entry. -/
def addTransitionT (st : StateTable) (idFrom : StateId) (y : String) (idTo : TVal) : StateTable :=
  aupdate idFrom (fun sd => { sd with transitions := aset y idTo sd.transitions }) st

/-- The table effect of `_deleteTransition(id, input)` (src lines 113-115):
remove the `(id, input)` entry. -/
def deleteTransitionT (st : StateTable) (id : StateId) (y : String) : StateTable :=
  aupdate id (fun sd => { sd with transitions := aerase y sd.transitions }) st

/-- `_addState(id, isFinal, transitions)` (src lines 126-169): if `id` is
unused, possibly promote it to start state, insert a blank state, and —
for non-null ids — set the final flag and map the given transitions;
otherwise do nothing at all. -/
def addState (m : Machine) (id : StateId) (isF : Bool) (tr : List (String × TVal)) : Machine :=
  match alookup id m.states with
  | some _ => m
  | none =>
    let m1 := if m.startId = nullId then { m with startId := id } else m
    let st1 := aset id createBlankState m1.states
    if id = nullId then { m1 with states := st1 }
    else
      let st2 := setFinal st1 id isF
      let st3 := tr.foldl (fun acc p => addTransitionT acc id p.1 p.2) st2
      { m1 with states := st3 }

/-- `_hasTransition(id, input)` (src lines 388-390), faithfully including
the comparison against the *string* `"undefined"`:
`_states[id].transitions[input] !== "undefined" || input === _emptyInput`.
A missing state id throws (`none`). -/
def hasTransition (st : StateTable) (id : StateId) (y : String) : Option Bool :=
  match alookup id st with
  | none => none
  | some sd =>
    some (decide (alookup y sd.transitions ≠ some (TVal.single "undefined"))
      || decide (y = emptyInput))

/-- `_isAccepted()` (src lines 356-364): scan the active set in order and
return true at the first final state; reading a missing state throws. -/
def acceptedAux (st : StateTable) : List StateId → Option Bool
  | [] => some false
  | s :: rest =>
    match alookup s st with
    | none => none
    | some sd => if sd.final then some true else acceptedAux st rest

/-- Result of a `bindStateEvent`/`bindMachineEvent` call.  The source
only ever produces `ok` or `typeErrorCrash` (the `events[type].push` on an
undefined list); `unknownEventTypeError` is the descriptive failure the
spec demands and is never produced by the code. -/
inductive BindRes where
  | ok (m : Machine) : BindRes
  | typeErrorCrash : BindRes
  | unknownEventTypeError : BindRes
deriving DecidableEq, Repr

/-- The fixed state-event names (README; `_createBlankState` src 194-206). -/
def stateEventTypes : List String := ["arriving", "arrive", "leaving", "leave"]

/-- The fixed machine-event names (`_events`, src lines 77-82). -/
def machineEventTypes : List String := ["changing", "change"]

/-- `_bindStateEvent(stateId, type, fn)` (src lines 380-382):
`_states[stateId].events[type].push(fn)`.  A missing state or an unknown
`type` makes the lookup yield `undefined` and `.push` throw a TypeError. -/
def bindStateEvent (m : Machine) (id : StateId) (ty : String) (h : Nat) : BindRes :=
  match alookup id m.states with
  | none => .typeErrorCrash
  | some _ =>
    if ty = "arriving" then
      .ok { m with states := aupdate id (fun sd =>
        { sd with events := { sd.events with arriving := sd.events.arriving ++ [h] } }) m.states }
    else if ty = "arrive" then
      .ok { m with states := aupdate id (fun sd =>
        { sd with events := { sd.events with arrive := sd.events.arrive ++ [h] } }) m.states }
    else if ty = "leaving" then
      .ok { m with states := aupdate id (fun sd =>
        { sd with events := { sd.events with leaving := sd.events.leaving ++ [h] } }) m.states }
    else if ty = "leave" then
      .ok { m with states := aupdate id (fun sd =>
        { sd with events := { sd.events with leave := sd.events.leave ++ [h] } }) m.states }
    else .typeErrorCrash

/-- `_bindMachineEvent(type, fn)` (src lines 384-386):
`_events[type].push(fn)`; unknown `type` throws a TypeError. -/
def bindMachineEvent (m : Machine) (ty : String) (h : Nat) : BindRes :=
  if ty = "changing" then
    .ok { m with mevents := { m.mevents with changing := m.mevents.changing ++ [h] } }
  else if ty = "change" then
    .ok { m with mevents := { m.mevents with change := m.mevents.change ++ [h] } }
  else .typeErrorCrash

/-- The constructor `StateMachine(states, startState)` (src lines 401-420):
`_startStateId = startState || null`, add the null state, add every given
state in order, set the declared start state if one was passed, then run
`_reset()`.  `start = none` models an omitted `startState` argument. -/
def mkMachineF (fuel : Nat) (init : List (String × Bool × List (String × TVal)))
    (start : Option String) : JsRes Machine :=
  let s0 : StateId :=
    match start with
    | some s => if s = emptyInput then nullId else some s
    | none => nullId
  let m0 : Machine := { states := [], startId := s0, cState := [nullId], mevents := ⟨[], []⟩ }
  let m1 := addState m0 nullId false []
  let m2 := init.foldl (fun m p => addState m (some p.1) p.2.1 p.2.2) m1
  let m3 :=
    match start with
    | some s => { m2 with startId := some s }
    | none => m2
  match inputFuel m3.states fuel emptyInput [m3.startId] with
  | .ok r => .ok { m3 with cState := r }
  | .crash => .crash
  | .hang => .hang

/-- One public call on the returned object (src lines 428-515). -/
inductive Call where
  | doInput (y : String) : Call
  | doReset : Call
  | getState : Call
  | getAccepted : Call
  | getNull : Call
  | doAddState (id : StateId) (f : Bool) (tr : List (String × TVal)) : Call
  | doDeleteState (id : StateId) : Call
  | doAddTransition (idFrom : StateId) (y : String) (dst : TVal) : Call
  | doDeleteTransition (id : StateId) (y : String) : Call
  | getHasTransition (id : StateId) (y : String) : Call
  | doBindState (id : StateId) (ty : String) (h : Nat) : Call
  | doBindMachine (ty : String) (h : Nat) : Call

/-- The visible result of one public call. -/
inductive Out where
  | sts (l : List StateId) : Out
  | bool (b : Bool) : Out
  | done : Out
deriving DecidableEq, Repr

/-- Execute one public call against the machine state, returning what the
caller observes and the machine afterwards; exceptions and unbounded
recursion surface as `crash` / `hang`. -/
def stepM (fuel : Nat) (m : Machine) : Call → JsRes (Out × Machine)
  | .doInput y =>
    match inputFuel m.states fuel y m.cState with
    | .ok r => .ok (.sts r, { m with cState := r })
    | .crash => .crash
    | .hang => .hang
  | .doReset =>
    match resetFuel m.states m.startId fuel with
    | .ok r => .ok (.sts r, { m with cState := r })
    | .crash => .crash
    | .hang => .hang
  | .getState => .ok (.sts m.cState, m)
  | .getAccepted =>
    match acceptedAux m.states m.cState with
    | some b => .ok (.bool b, m)
    | none => .crash
  | .getNull => .ok (.bool (nullState m), m)
  | .doAddState id f tr => .ok (.done, addState m id f tr)
  | .doDeleteState id => .ok (.done, { m with states := aerase id m.states })
  | .doAddTransition idFrom y dst =>
    match alookup idFrom m.states with
    | none => .crash
    | some _ => .ok (.done, { m with states := addTransitionT m.states idFrom y dst })
  | .doDeleteTransition id y =>
    match alookup id m.states with
    | none => .crash
    | some _ => .ok (.done, { m with states := deleteTransitionT m.states id y })
  | .getHasTransition id y =>
    match hasTransition m.states id y with
    | some b => .ok (.bool b, m)
    | none => .crash
  | .doBindState id ty h =>
    match bindStateEvent m id ty h with
    | .ok m2 => .ok (.done, m2)
    | _ => .crash
  | .doBindMachine ty h =>
    match bindMachineEvent m ty h with
    | .ok m2 => .ok (.done, m2)
    | _ => .crash

/-- Run a sequence of public calls; the first exception or unbounded
recursion aborts the run (it propagates to the caller). -/
def runCalls (fuel : Nat) : Machine → List Call → JsRes (List Out × Machine)
  | m, [] => .ok ([], m)
  | m, c :: cs =>
    match stepM fuel m c with
    | .crash => .crash
    | .hang => .hang
    | .ok (o, m2) =>
      match runCalls fuel m2 cs with
      | .crash => .crash
      | .hang => .hang
      | .ok (os, mf) => .ok (o :: os, mf)

/-- Construct a machine from the given states and start id, then run the
given sequence of public calls. -/
def runMachine (fuel : Nat) (init : List (String × Bool × List (String × TVal)))
    (start : Option String) (cs : List Call) : JsRes (List Out × Machine) :=
  match mkMachineF fuel init start with
  | .ok m => runCalls fuel m cs
  | .crash => .crash
  | .hang => .hang

/-!
Heap model of the active-state array.  JS arrays are heap objects handled
by reference: `srcStates = _cState` (src line 247) aliases the internal
array, the `shift()` loop (src line 265) drains that very array, and
`return _cState` (src lines 330, 348) hands the internal array itself to
the caller.  `HMachine` makes the references explicit: `heap` is the store
of arrays, `cRef` the index `_cState` currently points at. -/
structure HMachine where
  states : StateTable
  startId : StateId
  heap : List (List StateId)
  cRef : Nat
deriving DecidableEq, Repr

/-- Read the array a reference points at. -/
def heapGet (h : List (List StateId)) (r : Nat) : List StateId :=
  h.getD r []

/-- Overwrite the array a reference points at (caller-side mutation of a
returned array, or the engine draining the source array). -/
def heapSet (h : List (List StateId)) (r : Nat) (v : List StateId) : List (List StateId) :=
  h.set r v

/-- The heap effect of one `_input` pass: the source array at `m.cRef` is
drained in place by the `shift()` loop, a fresh array `ns` is allocated
for `newStates`, and `_cState` is repointed at it (src line 312). -/
def nextHM (m : HMachine) (ns : List StateId) : HMachine :=
  { m with heap := heapSet m.heap m.cRef [] ++ [ns]
           cRef := (heapSet m.heap m.cRef []).length }

/-- `_input` over the heap model (src lines 244-331): same transition
computation as `inputFuel`, with the array identities tracked; the
returned `Nat` is the reference `return _cState` hands to the caller. -/
def inputH : Nat → HMachine → String → JsRes (Nat × HMachine)
  | 0, _, _ => .hang
  | n + 1, m, y =>
    match passAux m.states y (heapGet m.heap m.cRef) [] with
    | none => .crash
    | some ns =>
      if ns ≠ [] ∧ hasEmptyMoves m.states ns then inputH n (nextHM m ns) emptyInput
      else .ok ((nextHM m ns).cRef, nextHM m ns)

/-- `_nullState()` over the heap model: the length of the array `_cState`
points at. -/
def nullStateH (m : HMachine) : Bool :=
  (heapGet m.heap m.cRef).length == 0

/-!  Concrete machines used by individual claims.  -/

/-- Two states `X` and `Y` with mutual epsilon transitions: the cyclic
epsilon structure named by the spec. -/
def epsCycleTable : StateTable :=
  [(some "X", { final := false, transitions := [("", TVal.single "Y")], events := ⟨[], [], [], []⟩ }),
   (some "Y", { final := false, transitions := [("", TVal.single "X")], events := ⟨[], [], [], []⟩ })]

/-!  Theorems.  -/

lemma epsCycle_step_x (n : Nat) :
    inputFuel epsCycleTable (n + 1) emptyInput [some "X"] =
      inputFuel epsCycleTable n emptyInput [some "Y"] := rfl

lemma epsCycle_step_y (n : Nat) :
    inputFuel epsCycleTable (n + 1) emptyInput [some "Y"] =
      inputFuel epsCycleTable n emptyInput [some "X"] := rfl

lemma epsCycle_hangs (n : Nat) :
    inputFuel epsCycleTable n emptyInput [some "X"] = .hang ∧
      inputFuel epsCycleTable n emptyInput [some "Y"] = .hang := by
  induction n with
  | zero => exact ⟨rfl, rfl⟩
  | succ k ih => exact ⟨(epsCycle_step_x k).trans ih.2, (epsCycle_step_y k).trans ih.1⟩

/-- C1: false of the code.  On the machine with mutual epsilon transitions
`X --ε--> Y`, `Y --ε--> X`, neither `input("")` from `{X}` nor `reset()`
with start state `X` ever returns: every pass produces a non-empty set
whose sole member has a defined empty-symbol transition, so `_input`
re-triggers itself unboundedly (src lines 319-329) — no amount of fuel
yields a result.  The claimed terminating closure `{X, Y}` is never
reached. -/
theorem c1_epsilon_cycle_diverges (n : Nat) :
    inputFuel epsCycleTable n emptyInput [some "X"] = .hang ∧
      resetFuel epsCycleTable (some "X") n = .hang :=
  ⟨(epsCycle_hangs n).1, (epsCycle_hangs n).1⟩

/-- C6: `nullState()` is `_cState.length === 0`, which holds exactly when
the active set is the empty list; and feeding any symbol to an empty
active set runs the queue loop zero times, produces the empty set, skips
the epsilon re-trigger (src line 319), and returns the empty set. -/
theorem c6_nullstate (m : Machine) (y : String) (n : Nat) :
    (nullState m = true ↔ m.cState = []) ∧
      (nullState m = true → inputFuel m.states (n + 1) y m.cState = .ok []) := by
  constructor
  · simp [nullState, List.length_eq_zero]
  · intro h
    have hc : m.cState = [] := by simpa [nullState, List.length_eq_zero] using h
    rw [hc]
    simp [inputFuel, passAux]

/-- Witness for C6 at a concrete machine with an empty active set. -/
theorem c6_nullstate_witness :
    nullState { states := [], startId := nullId, cState := [], mevents := ⟨[], []⟩ } = true ∧
      inputFuel ([] : StateTable) 1 "q" [] = .ok [] := by
  refine ⟨rfl, ?_⟩
  have h := (c6_nullstate { states := [], startId := nullId, cState := [], mevents := ⟨[], []⟩ }
    "q" 0).2 rfl
  simpa using h

/-- C8: `_addState` first tests `typeof(_states[id]) === "undefined"`
(src line 131); when the id is already present the whole body is skipped,
so the machine — state table, start state, active set, event lists — is
returned unchanged and the `isFinal`/`transitions` arguments are never
read. -/
theorem c8_addstate_noop (m : Machine) (id : StateId) (f : Bool)
    (tr : List (String × TVal)) (h : (alookup id m.states).isSome) :
    addState m id f tr = m := by
  obtain ⟨sd, hsd⟩ := Option.isSome_iff_exists.mp h
  simp [addState, hsd]

lemma pushDests_inv {st : StateTable} {ds : List StateId} {acc acc2 : List StateId}
    (h : pushDests st acc ds = some acc2)
    (hnd : acc.Nodup) (hnn : nullId ∉ acc) : acc2.Nodup ∧ nullId ∉ acc2 := by
  induction ds generalizing acc with
  | nil =>
    simp only [pushDests, Option.some.injEq] at h
    exact h ▸ ⟨hnd, hnn⟩
  | cons d ds ih =>
    by_cases hc : d ∈ acc ∨ d = nullId
    · rw [pushDests, if_pos hc] at h
      exact ih h hnd hnn
    · push_neg at hc
      obtain ⟨hd1, hd2⟩ := hc
      rw [pushDests, if_neg (by simp [hd1, hd2])] at h
      cases halk : alookup d st with
      | none => rw [halk] at h; exact absurd h (by simp)
      | some sd =>
        rw [halk] at h
        refine ih h ?_ ?_
        · exact List.Nodup.append hnd (List.nodup_singleton d)
            (fun a ha hb => by simp at hb; exact hd1 (hb ▸ ha))
        · simp only [List.mem_append, List.mem_singleton]
          rintro (hx | hx)
          · exact hnn hx
          · exact hd2 hx.symm

lemma passAux_inv {st : StateTable} {y : String} {src acc r : List StateId}
    (h : passAux st y src acc = some r)
    (hnd : acc.Nodup) (hnn : nullId ∉ acc) : r.Nodup ∧ nullId ∉ r := by
  induction src generalizing acc with
  | nil =>
    simp only [passAux, Option.some.injEq] at h
    exact h ▸ ⟨hnd, hnn⟩
  | cons s rest ih =>
    rw [passAux] at h
    split at h
    · exact absurd h (by simp)
    · split at h
      · exact absurd h (by simp)
      · next hp =>
          obtain ⟨h1, h2⟩ := pushDests_inv hp hnd hnn
          exact ih h h1 h2

lemma inputFuel_inv {st : StateTable} {y : String} {src r : List StateId} {n : Nat}
    (h : inputFuel st n y src = .ok r) : r.Nodup ∧ nullId ∉ r := by
  induction n generalizing y src with
  | zero => exact absurd h (by simp [inputFuel])
  | succ k ih =>
    rw [inputFuel] at h
    split at h
    · exact absurd h (by simp)
    · next hp =>
        split at h
        · exact ih h
        · cases h
          exact passAux_inv hp List.nodup_nil (by simp)

/-- C7: any active-state set produced by a completed `input()` call, and
hence by a completed `reset()` call (which is `_cState = [start]` followed
by `_input("")`), is duplicate-free and never contains the null-state id:
the inner loop of `_input` pushes a destination only if it is not yet in
`newStates` and differs from `_nullStateId` (src lines 286-305). -/
theorem c7_active_set_invariant (st : StateTable) (start : StateId) (y : String)
    (src r : List StateId) (n : Nat) :
    (inputFuel st n y src = .ok r → r.Nodup ∧ nullId ∉ r) ∧
      (resetFuel st start n = .ok r → r.Nodup ∧ nullId ∉ r) :=
  ⟨fun h => inputFuel_inv h, fun h => inputFuel_inv h⟩

/-- Witness for C7 on the README example's two-destination step: the
result `[B, D]` of feeding `"c"` from `{D}` is duplicate-free and
null-free, and so is the reset closure of a one-state machine. -/
theorem c7_active_set_witness :
    ([some "B", some "D"] : List StateId).Nodup ∧ nullId ∉ ([some "B", some "D"] : List StateId) :=
  (c7_active_set_invariant
    [(some "B", createBlankState),
     (some "D", { final := true,
                  transitions := [("c", TVal.many ["B", "D"])], events := ⟨[], [], [], []⟩ })]
    nullId "c" [some "D"] [some "B", some "D"] 1).1 (by decide)

/-- Modelled from the spec, §4.2 step b, word for word: if `s` has an
explicit transition for the symbol, destinations are that transition's
target or targets; otherwise `{s}` on the empty symbol, else the
null state. -/
def specDestinations (sd : StateData) (s : StateId) (y : String) : List StateId :=
  match alookup y sd.transitions with
  | some v => tvToList v
  | none => if y = emptyInput then [s] else [nullId]

/-- Modelled from the spec as amended: an explicit transition determines
the destinations only when its stored target is truthy; a stored
empty-string target falls through to the default exactly as if no
transition existed for the symbol. -/
def specDestinationsAmended (sd : StateData) (s : StateId) (y : String) : List StateId :=
  match alookup y sd.transitions with
  | some (TVal.many l) => l.map some
  | some (TVal.single a) =>
    if a = emptyInput then (if y = emptyInput then [s] else [nullId]) else [some a]
  | none => if y = emptyInput then [s] else [nullId]

/-- A state whose explicit `"x"` transition stores the falsy empty-string
id as its target. -/
def falsyTargetSd : StateData :=
  { final := false, transitions := [("x", TVal.single "")], events := ⟨[], [], [], []⟩ }

/-- C2, counterexample: the state has an explicit transition for `"x"`,
yet the engine does not take its target `{""}` — the stored empty string
is falsy, so the `||` default (src lines 271-274) routes the branch to the
null state instead. -/
theorem c2_destinations_counterexample :
    alookup "x" falsyTargetSd.transitions = some (TVal.single "") ∧
      destList falsyTargetSd (some "a") "x" ≠ specDestinations falsyTargetSd (some "a") "x" := by
  decide

/-- C2 as amended: per-symbol destination resolution follows the spec's
rule with one proviso — a stored falsy (empty-string) target is treated
like an absent transition, falling back to `{s}` on the empty symbol and
to the null state otherwise. -/
theorem c2_destinations_amended (sd : StateData) (s : StateId) (y : String) :
    destList sd s y = specDestinationsAmended sd s y := by
  rw [destList, specDestinationsAmended]
  cases halk : alookup y sd.transitions with
  | none => rfl
  | some v =>
    cases v with
    | single a =>
      by_cases ha : a = emptyInput
      · simp [ha, tvTruthy, fallbackDest, nullId]
      · simp [ha, tvTruthy, tvToList, fallbackDest]
    | many l => simp [tvTruthy, tvToList]

/-- The one-state table for the C3 failing input: state `"a"` exists and
has no transitions at all. -/
def c3Table : StateTable := [(some "a", createBlankState)]

/-- Modelled from the spec: `hasTransition(id, symbol)` is true iff an
explicit mapping exists for `(id, symbol)` or the symbol is the empty
symbol. -/
def specHasTransition (st : StateTable) (id : StateId) (y : String) : Option Bool :=
  match alookup id st with
  | none => none
  | some sd => some ((alookup y sd.transitions).isSome || decide (y = emptyInput))

/-- C3: the code evaluated at the failing input.  State `"a"` has no
transition for `"x"` and `"x"` is not the empty symbol, so the spec
demands `false`; the code compares the lookup result against the *string*
`"undefined"` instead of the undefined value (src line 389), a comparison
that is true for every absent entry, and answers `true`. -/
theorem c3_hastransition_bug :
    hasTransition c3Table (some "a") "x" = some true ∧
      specHasTransition c3Table (some "a") "x" = some false := by
  decide

/-- A one-state machine used by the event-binding counterexample. -/
def bindDemoMachine : Machine :=
  { states := [(some "a", createBlankState)], startId := some "a",
    cState := [some "a"], mevents := ⟨[], []⟩ }

/-- C4, counterexample: binding the unknown event type `"foo"` — on an
existing state and on the machine — does not produce the descriptive
"unknown event type" failure the claim demands; it is the TypeError from
pushing onto the undefined `events["foo"]` list (src lines 380-386). -/
theorem c4_bind_counterexample :
    bindStateEvent bindDemoMachine (some "a") "foo" 0 ≠ BindRes.unknownEventTypeError ∧
      bindMachineEvent bindDemoMachine "foo" 0 ≠ BindRes.unknownEventTypeError ∧
      bindStateEvent bindDemoMachine (some "a") "foo" 0 = BindRes.typeErrorCrash ∧
      bindMachineEvent bindDemoMachine "foo" 0 = BindRes.typeErrorCrash := by
  refine ⟨?_, ?_, rfl, rfl⟩ <;> intro h <;> exact BindRes.noConfusion h

/-- C4 as amended: for any event type outside the fixed enumerations the
bind calls neither do nothing nor raise a descriptive error — they crash
with the TypeError of the internal `events[type].push` lookup. -/
theorem c4_bind_amended (m : Machine) (id : StateId) (ty : String) (h : Nat) :
    (ty ∉ stateEventTypes → bindStateEvent m id ty h = BindRes.typeErrorCrash) ∧
      (ty ∉ machineEventTypes → bindMachineEvent m ty h = BindRes.typeErrorCrash) := by
  constructor
  · intro hmem
    simp only [stateEventTypes, List.mem_cons, List.mem_singleton, not_or] at hmem
    obtain ⟨h1, h2, h3, h4⟩ := hmem
    cases hs : alookup id m.states with
    | none => simp [bindStateEvent, hs]
    | some sd => simp [bindStateEvent, hs, h1, h2, h3, h4]
  · intro hmem
    simp only [machineEventTypes, List.mem_cons, List.mem_singleton, not_or] at hmem
    obtain ⟨h1, h2⟩ := hmem
    simp [bindMachineEvent, h1, h2]

/-- Witness for C4 at the concrete unknown type `"boom"`. -/
theorem c4_bind_witness :
    bindStateEvent bindDemoMachine (some "a") "boom" 0 = BindRes.typeErrorCrash ∧
      bindMachineEvent bindDemoMachine "boom" 0 = BindRes.typeErrorCrash :=
  ⟨(c4_bind_amended bindDemoMachine (some "a") "boom" 0).1 (by decide),
   (c4_bind_amended bindDemoMachine (some "a") "boom" 0).2 (by decide)⟩

/-- A one-state machine in the heap model: state `"a"` loops to itself on
`"x"`; the active array `[a]` lives at reference 0. -/
def aliasDemoMachine : HMachine :=
  { states := [(some "a", { final := false, transitions := [("x", TVal.single "a")],
                            events := ⟨[], [], [], []⟩ })],
    startId := some "a", heap := [[some "a"]], cRef := 0 }

/-- The machine state after `input("x")` on `aliasDemoMachine`: the old
array at reference 0 was drained, the new active array `[a]` sits at
reference 1, and that same reference 1 was returned to the caller. -/
def aliasDemoAfter : HMachine :=
  { states := aliasDemoMachine.states, startId := some "a",
    heap := [[], [some "a"]], cRef := 1 }

/-- C5, counterexample: `input("x")` hands the caller reference 1 — the
machine's own `_cState` array, not a snapshot.  Emptying the returned
array flips `nullState()` from `false` to `true`: the caller mutated the
machine's internal active-state set through the returned value. -/
theorem c5_snapshot_counterexample :
    inputH 1 aliasDemoMachine "x" = JsRes.ok (1, aliasDemoAfter) ∧
      nullStateH aliasDemoAfter = false ∧
      nullStateH { aliasDemoAfter with heap := heapSet aliasDemoAfter.heap 1 [] } = true := by
  refine ⟨?_, rfl, rfl⟩
  decide

/-- C5 as amended: whenever `input` returns, the reference it hands the
caller is exactly the machine's internal `_cState` reference (src lines
312, 330) — the returned collection is an alias of the internal
active-state set, not a snapshot, so caller mutation through it is
machine mutation. -/
theorem c5_alias_amended (n : Nat) (m : HMachine) (y : String) (r : Nat) (m2 : HMachine)
    (h : inputH n m y = JsRes.ok (r, m2)) : r = m2.cRef := by
  induction n generalizing m y with
  | zero => exact absurd h (by simp [inputH])
  | succ k ih =>
    rw [inputH] at h
    split at h
    · exact absurd h (by simp)
    · split at h
      · exact ih _ _ h
      · cases h
        rfl

/-- Witness for C5's amended statement at the concrete machine. -/
theorem c5_alias_witness : (1 : Nat) = aliasDemoAfter.cRef :=
  c5_alias_amended 1 aliasDemoMachine "x" 1 aliasDemoAfter (by decide)

lemma alookup_aupdate_self {α β : Type} [DecidableEq α] (k : α) (f : β → β)
    (l : List (α × β)) : alookup k (aupdate k f l) = (alookup k l).map f := by
  induction l with
  | nil => rfl
  | cons p t ih =>
    obtain ⟨a, b⟩ := p
    by_cases ha : a = k
    · subst ha; simp [aupdate, alookup]
    · simp [aupdate, alookup, ha, ih]

lemma alookup_aupdate_other {α β : Type} [DecidableEq α] {t k : α} (hne : t ≠ k)
    (f : β → β) (l : List (α × β)) : alookup t (aupdate k f l) = alookup t l := by
  induction l with
  | nil => rfl
  | cons p tl ih =>
    obtain ⟨a, b⟩ := p
    by_cases ha : a = k
    · subst ha
      have hat : a ≠ t := fun hh => hne hh.symm
      simp [aupdate, alookup, hat, ih]
    · by_cases hat : a = t
      · subst hat; simp [aupdate, alookup, ha]
      · simp [aupdate, alookup, ha, hat, ih]

lemma alookup_aerase_self {α β : Type} [DecidableEq α] (y : α) (l : List (α × β)) :
    alookup y (aerase y l) = none := by
  induction l with
  | nil => rfl
  | cons p tl ih =>
    obtain ⟨a, b⟩ := p
    by_cases ha : a = y
    · rw [aerase, if_pos ha]; exact ih
    · rw [aerase, if_neg ha, alookup, if_neg ha]; exact ih

lemma alookup_aerase_other {α β : Type} [DecidableEq α] {z y : α} (hne : z ≠ y)
    (l : List (α × β)) : alookup z (aerase y l) = alookup z l := by
  induction l with
  | nil => rfl
  | cons p tl ih =>
    obtain ⟨a, b⟩ := p
    by_cases ha : a = y
    · have haz : a ≠ z := fun hh => hne (hh.symm.trans ha)
      rw [aerase, if_pos ha, alookup, if_neg haz]
      exact ih
    · rw [aerase, if_neg ha, alookup, alookup]
      by_cases haz : a = z
      · rw [if_pos haz, if_pos haz]
      · rw [if_neg haz, if_neg haz]; exact ih

lemma stlookup_delT (st : StateTable) (s t : StateId) (y : String) :
    alookup t (deleteTransitionT st s y) =
      if t = s then
        (alookup s st).map (fun sd => { sd with transitions := aerase y sd.transitions })
      else alookup t st := by
  by_cases hts : t = s
  · subst hts; simp [deleteTransitionT, alookup_aupdate_self]
  · simp [deleteTransitionT, alookup_aupdate_other hts, hts]

lemma pushDests_congr {st st2 : StateTable}
    (hsome : ∀ d, (alookup d st2).isSome = (alookup d st).isSome) :
    ∀ (ds acc : List StateId), pushDests st2 acc ds = pushDests st acc ds := by
  intro ds
  induction ds with
  | nil => intro _; rfl
  | cons d ds ih =>
    intro acc
    rw [pushDests, pushDests]
    by_cases hc : d ∈ acc ∨ d = nullId
    · rw [if_pos hc, if_pos hc]; exact ih acc
    · rw [if_neg hc, if_neg hc]
      cases h1 : alookup d st with
      | none =>
        have h2 : alookup d st2 = none := by
          have hh := hsome d
          rw [h1] at hh
          exact Option.not_isSome_iff_eq_none.mp (by simp [hh])
        simp [h1, h2]
      | some sd =>
        cases h2 : alookup d st2 with
        | none =>
          exfalso
          have hh := hsome d
          rw [h1, h2] at hh
          simp at hh
        | some sd2 => simp only [h1, h2]; exact ih (acc ++ [d])

lemma passAux_ext {st st2 : StateTable} {z : String}
    (hsome : ∀ d, (alookup d st2).isSome = (alookup d st).isSome)
    (hdest : ∀ s sd sd2, alookup s st = some sd → alookup s st2 = some sd2 →
      destList sd2 s z = destList sd s z) :
    ∀ (src acc : List StateId), passAux st2 z src acc = passAux st z src acc := by
  intro src
  induction src with
  | nil => intro _; rfl
  | cons s rest ih =>
    intro acc
    rw [passAux, passAux]
    cases h1 : alookup s st with
    | none =>
      have h2 : alookup s st2 = none := by
        have hh := hsome s
        rw [h1] at hh
        exact Option.not_isSome_iff_eq_none.mp (by simp [hh])
      simp [h1, h2]
    | some sd =>
      cases h2 : alookup s st2 with
      | none =>
        exfalso
        have hh := hsome s
        rw [h1, h2] at hh
        simp at hh
      | some sd2 =>
        simp only [h1, h2, hdest s sd sd2 h1 h2, pushDests_congr hsome]
        cases pushDests st acc (destList sd s z) with
        | none => rfl
        | some acc2 => exact ih acc2

lemma destList_aerase {sd : StateData} {s' : StateId} {y z : String}
    (hy : alookup y sd.transitions = some (TVal.single emptyInput)) :
    destList { sd with transitions := aerase y sd.transitions } s' z = destList sd s' z := by
  rw [destList, destList]
  by_cases hzy : z = y
  · subst hzy
    rw [show alookup z (aerase z sd.transitions) = (none : Option TVal) from
        alookup_aerase_self z sd.transitions]
    rw [hy]
    simp [tvTruthy, emptyInput]
  · simp only [alookup_aerase_other hzy]

lemma delT_hsome {st : StateTable} {s : StateId} {y : String} :
    ∀ d, (alookup d (deleteTransitionT st s y)).isSome = (alookup d st).isSome := by
  intro d
  rw [stlookup_delT]
  by_cases hd : d = s
  · subst hd; simp
  · simp [hd]

lemma hasEmptyMoves_delT {st : StateTable} {s : StateId} {y : String}
    (hyne : y ≠ emptyInput) :
    ∀ ns, hasEmptyMoves (deleteTransitionT st s y) ns = hasEmptyMoves st ns := by
  intro ns
  induction ns with
  | nil => rfl
  | cons t rest ih =>
    rw [hasEmptyMoves, hasEmptyMoves, ih]
    have hey : emptyInput ≠ y := fun hh => hyne hh.symm
    rw [stlookup_delT]
    by_cases ht : t = s
    · subst ht
      rw [if_pos rfl]
      cases hs : alookup t st with
      | none => rfl
      | some sd => simp [alookup_aerase_other hey]
    · rw [if_neg ht]

lemma inputFuel_delT {st : StateTable} {s : StateId} {sd : StateData} {y : String}
    (hs : alookup s st = some sd)
    (hy : alookup y sd.transitions = some (TVal.single emptyInput))
    (hyne : y ≠ emptyInput) :
    ∀ (n : Nat) (z : String) (src : List StateId),
      inputFuel (deleteTransitionT st s y) n z src = inputFuel st n z src := by
  intro n
  induction n with
  | zero => intro _ _; rfl
  | succ k ih =>
    intro z src
    have hdest : ∀ t td td2, alookup t st = some td →
        alookup t (deleteTransitionT st s y) = some td2 → destList td2 t z = destList td t z := by
      intro t td td2 h1 h2
      rw [stlookup_delT] at h2
      by_cases hts : t = s
      · subst hts
        rw [if_pos rfl, h1] at h2
        have hsd : td = sd := by rw [h1] at hs; exact Option.some.inj hs
        subst hsd
        have h2' : td2 = { td with transitions := aerase y td.transitions } :=
          (Option.some.inj h2).symm
        subst h2'
        exact destList_aerase hy
      · rw [if_neg hts, h1] at h2
        rw [Option.some.inj h2]
    rw [inputFuel, inputFuel, passAux_ext delT_hsome hdest src []]
    cases hp : passAux st z src [] with
    | none => rfl
    | some ns => simp [hasEmptyMoves_delT hyne ns, ih]

/-- A single state `A` whose empty-symbol transition stores the falsy
empty-string id as its target. -/
def falsyEpsTable : StateTable :=
  [(some "A", { final := false, transitions := [("", TVal.single "")],
                events := ⟨[], [], [], []⟩ })]

lemma falsyEps_step (n : Nat) :
    inputFuel falsyEpsTable (n + 1) emptyInput [some "A"] =
      inputFuel falsyEpsTable n emptyInput [some "A"] := rfl

lemma falsyEps_hangs (n : Nat) :
    inputFuel falsyEpsTable n emptyInput [some "A"] = .hang := by
  induction n with
  | zero => rfl
  | succ k ih => exact (falsyEps_step k).trans ih

/-- C10, counterexample: state `A` stores the falsy empty-string target
for the empty symbol.  Each pass does fall back to staying put, but the
re-trigger test `typeof(transitions[""]) !== "undefined"` (src line 321)
still sees a *defined* epsilon entry, so `input("")` recurses unboundedly
and never returns the claimed stay-put set `{A}` — with the empty symbol
the machine does not behave as if the transition were absent. -/
theorem c10_falsy_counterexample :
    inputFuel falsyEpsTable 5 emptyInput [some "A"] = .hang ∧
      ¬ ∃ n, inputFuel falsyEpsTable n emptyInput [some "A"] = .ok [some "A"] := by
  refine ⟨falsyEps_hangs 5, ?_⟩
  rintro ⟨n, hn⟩
  rw [falsyEps_hangs n] at hn
  exact JsRes.noConfusion hn

/-- C10 as amended: a stored falsy (empty-string) target for `(s, y)` is
skipped by the `||` default in destination resolution, so each pass falls
back to staying put on the empty symbol and to the dead null-state branch
otherwise; and for any non-empty symbol `y` the whole `input` computation
is identical to that of the machine with the `(s, y)` transition deleted.
For `y` the empty symbol the full-call equivalence fails: the falsy entry
still counts as a defined epsilon transition for the re-trigger test, and
`input("")` recurses unboundedly instead of staying put. -/
theorem c10_falsy_amended (st : StateTable) (s : StateId) (sd : StateData) (y : String)
    (hs : alookup s st = some sd)
    (hy : alookup y sd.transitions = some (TVal.single emptyInput)) :
    destList sd s y = fallbackDest s y ∧
      (y ≠ emptyInput → ∀ (n : Nat) (z : String) (src : List StateId),
        inputFuel st n z src = inputFuel (deleteTransitionT st s y) n z src) := by
  constructor
  · rw [destList, hy]; simp [tvTruthy, emptyInput]
  · intro hyne n z src
    exact (inputFuel_delT hs hy hyne n z src).symm

/-- The table for the C10 witness: `a` maps `"x"` to the falsy empty id. -/
def falsyXTable : StateTable :=
  [(some "a", { final := false, transitions := [("x", TVal.single "")],
                events := ⟨[], [], [], []⟩ })]

/-- Witness for C10 at the concrete symbol `"x"`: the destination falls
back, and feeding `"x"` behaves exactly as with the transition deleted. -/
theorem c10_falsy_witness :
    destList { final := false, transitions := [("x", TVal.single "")],
               events := ⟨[], [], [], []⟩ } (some "a") "x" = fallbackDest (some "a") "x" ∧
      inputFuel falsyXTable 2 "x" [some "a"] =
        inputFuel (deleteTransitionT falsyXTable (some "a") "x") 2 "x" [some "a"] :=
  ⟨(c10_falsy_amended falsyXTable (some "a") _ "x" rfl rfl).1,
   (c10_falsy_amended falsyXTable (some "a") _ "x" rfl rfl).2 (by decide) 2 "x" [some "a"]⟩

/-- C9: the embedding of the machine is a function of the constructor
arguments and the call sequence — no hidden input enters `runMachine` —
so two instances built from the same states object and start id, fed the
same sequence of public calls, yield the same observable results and the
same final internal machine state. -/
theorem c9_deterministic (fuel : Nat) (init : List (String × Bool × List (String × TVal)))
    (start : Option String) (cs : List Call) (o1 o2 : JsRes (List Out × Machine))
    (h1 : runMachine fuel init start cs = o1) (h2 : runMachine fuel init start cs = o2) :
    o1 = o2 :=
  h1.symm.trans h2

/-- The constructor input for the C9 witness: one final state `"a"`. -/
def detDemoInit : List (String × Bool × List (String × TVal)) := [("a", true, [])]

/-- The machine the C9 witness run ends in. -/
def detDemoFinal : Machine :=
  { states := [(nullId, createBlankState),
               (some "a", { final := true, transitions := [], events := ⟨[], [], [], []⟩ })],
    startId := some "a", cState := [some "a"], mevents := ⟨[], []⟩ }

/-- Witness for C9: a concrete run, pinned to its concrete outcome by the
determinism theorem. -/
theorem c9_deterministic_witness :
    runMachine 2 detDemoInit (some "a") [Call.getNull, Call.getAccepted] =
      JsRes.ok ([Out.bool false, Out.bool true], detDemoFinal) :=
  c9_deterministic 2 detDemoInit (some "a") [Call.getNull, Call.getAccepted]
    (runMachine 2 detDemoInit (some "a") [Call.getNull, Call.getAccepted])
    (JsRes.ok ([Out.bool false, Out.bool true], detDemoFinal)) rfl (by decide)

/-- Witness for C8: re-adding the existing state `"a"` with different
final flag and transitions changes nothing. -/
theorem c8_addstate_witness :
    addState { states := [(some "a", createBlankState)], startId := some "a",
               cState := [some "a"], mevents := ⟨[], []⟩ }
        (some "a") true [("z", TVal.single "q")] =
      { states := [(some "a", createBlankState)], startId := some "a",
        cState := [some "a"], mevents := ⟨[], []⟩ } :=
  c8_addstate_noop _ _ _ _ (by decide)

end Avtomat
